import Mathlib

/-!
Shallow embedding of the DAG workflow scheduler in `workflow-executor.py`
(class `Generator`) together with the data model of
`workflow-executor-types.py`.

Node keys are strings.  Edge endpoints (`from_node`, `to_node`) are
`Option String`, because the raw `Edge` model declares both endpoints
optional with default `None`.  The executed-node map (`executed_nodes`)
is an insertion-ordered association list whose keys are `Option String`:
the skip path `_handle_skipped_node` writes under whatever key the task
carries, which can be the missing marker when a malformed edge names no
target.

Activity execution is abstracted by an oracle `String → Except String
String`: `Except.ok r` is a successful activity result, `Except.error m`
is an activity that raised (including timeout / exhausted retries, which
the runtime surfaces as an error).  Persistence patches carry no state
the scheduler reads back, so the step machine omits them; the patch
construction of `update_node_output` / `update_execution_status` is
embedded separately as pure functions returning the list of patch calls
they would issue.

Concurrency: the Python code is single-threaded cooperative asyncio.
Every `await` is a suspension point.  The step machine keeps a list of
pending tasks, each a small program counter over the suspension points
of `execute_node`, and an external schedule (a list of task indices)
decides which pending task advances next.  A run is any fold of steps
from the initial state; a completed run is one whose task list is empty.
-/

/-- Node/run status, mirroring `class Status` in workflow-executor.py.
The Python code stores and compares `Status.X.name` strings; the names
are in bijection with the constructors, so statuses are embedded as the
enum itself. -/
inductive Status where
  | PENDING
  | EXECUTING
  | COMPLETED
  | SUCCESS
  | FAILED
  | SKIPPED
deriving DecidableEq

/-- The `output` field of an executed-node record: either an opaque
activity result or an error payload `{"error": msg}`. -/
inductive Output where
  | result (value : String)
  | errorMsg (msg : String)
deriving DecidableEq

/-- One value of `self.executed_nodes`: `{"status": ..., "output": ...}`. -/
structure NodeRec where
  status : Status
  output : Output
deriving DecidableEq

/-- `class Edge` in workflow-executor-types.py: both endpoints are
`Optional[str] = None`. -/
structure Edge where
  from_node : Option String
  to_node : Option String
deriving DecidableEq

/-- The executed-node map `self.executed_nodes`, as an insertion-ordered
association list (Python dict preserves insertion order; overwriting a
key keeps its position). -/
abbrev ExecMap := List (Option String × NodeRec)

/-- The fixed skip message of `_handle_skipped_node`. -/
def skipMsg : String := "Skipped due to previous node failure"

/-- The skip record written by `_handle_skipped_node`. -/
def skipRec : NodeRec := ⟨Status.SKIPPED, Output.errorMsg skipMsg⟩

/-- Python dict assignment `executed_nodes[k] = v`: overwrite in place
if the key exists, else append. -/
def setKey : ExecMap → Option String → NodeRec → ExecMap
  | [], k, v => [(k, v)]
  | (k0, v0) :: rest, k, v =>
    if k0 = k then (k, v) :: rest else (k0, v0) :: setKey rest k v

/-- Python dict lookup / `k in executed_nodes` membership. -/
def lookupKey : ExecMap → Option String → Option NodeRec
  | [], _ => none
  | (k0, v) :: rest, k => if k0 = k then some v else lookupKey rest k

/-- Python set comprehensions deduplicate; list embedding of a set of
optional keys. -/
def dedupO : List (Option String) → List (Option String)
  | [] => []
  | x :: xs => if x ∈ xs then dedupO xs else x :: dedupO xs

/-- `_precompute_dependencies`, per node: the set
`{edge.from_node for edge in edges if edge.to_node == node}`.  When
`from_node` is missing the set contains the missing marker, exactly as
the Python set contains `None`. -/
def nodeDeps (edges : List Edge) (node : String) : List (Option String) :=
  dedupO ((edges.filter (fun e => e.to_node == some node)).map (fun e => e.from_node))

/-- `self._node_dependencies.get(child, set())` as used in
`_process_child_nodes`: the precomputed map has an entry exactly for the
keys of `self.nodes`, so any other child (including a missing-marker
child) defaults to the empty set. -/
def depLookup (nodes : List String) (edges : List Edge) (child : Option String) :
    List (Option String) :=
  match child with
  | some c => if c ∈ nodes then nodeDeps edges c else []
  | none => []

/-- Direct children in `_process_child_nodes`:
`{edge.to_node for edge in edges if edge.from_node == node_key}`. -/
def childNodes (edges : List Edge) (key : String) : List (Option String) :=
  dedupO ((edges.filter (fun e => e.from_node == some key)).map (fun e => e.to_node))

/-- The `ready_children` filter of `_process_child_nodes`: children all
of whose dependencies are present as keys of the executed map —
presence only, the recorded status is never inspected. -/
def readyChildren (nodes : List String) (edges : List Edge) (executed : ExecMap)
    (key : String) : List (Option String) :=
  (childNodes edges key).filter (fun child =>
    (depLookup nodes edges child).all (fun dep => (lookupKey executed dep).isSome))

/-- `determine_final_status` of workflow-executor.py. -/
def determine_final_status (executed : ExecMap) : Status :=
  let statuses := executed.map (fun p => p.2.status)
  if statuses.any (fun st => st == Status.FAILED) then Status.FAILED
  else if statuses.any (fun st => st == Status.PENDING) then Status.PENDING
  else Status.COMPLETED

/-- `find_root_keys` of workflow-executor.py:
`set(nodes.keys()) - {edge.to_node for edge in edges}`. -/
def find_root_keys (nodes : List String) (edges : List Edge) : List String :=
  nodes.filter (fun k => !(edges.any (fun e => e.to_node == some k)))

/-- A JSON-patch value: either a stringified status or a result payload. -/
inductive PatchValue where
  | statusVal (s : Status)
  | resultVal (r : Output)
deriving DecidableEq

/-- One patch operation `{op, path, value}`. -/
structure PatchOp where
  op : String
  path : String
  value : PatchValue
deriving DecidableEq

/-- One invocation of `patch_execution_activity`: its arguments. -/
structure PatchCall where
  executionId : String
  patches : List PatchOp
  userId : Option String
deriving DecidableEq

/-- `update_execution_status`: the list of patch calls it issues.
`if not self.execution_id: return` — both `None` and the empty string
are falsy. -/
def update_execution_status (execution_id : Option String)
    (user_id : Option String) (status : Status) : List PatchCall :=
  match execution_id with
  | none => []
  | some eid =>
    if eid = "" then []
    else [⟨eid, [⟨"replace", "/status", PatchValue.statusVal status⟩], user_id⟩]

/-- `update_node_output`: the list of patch calls it issues. -/
def update_node_output (execution_id : Option String) (user_id : Option String)
    (node_key : String) (result : Option Output) (status : Option Status) :
    List PatchCall :=
  match execution_id with
  | none => []
  | some eid =>
    if eid = "" then []
    else
      let resultPatches : List PatchOp :=
        match result with
        | some r => [⟨"add", "/output/" ++ node_key, PatchValue.resultVal r⟩]
        | none => []
      let statusPatches : List PatchOp :=
        match status with
        | some st => [⟨"add", "/output/" ++ node_key ++ "/status", PatchValue.statusVal st⟩]
        | none => []
      [⟨eid, resultPatches ++ statusPatches, user_id⟩]

/-- Program counter of one `execute_node` task, at its suspension
points.  `start`: the task was created by a gather but has not yet run
its first synchronous block (the failure-flag check).  `executing`: the
EXECUTING placeholder was persisted and the activity is awaited.
`recSuccess`: the activity returned, the SUCCESS record was written and
its persistence patch awaited; next block is `_process_child_nodes`.
`recFailed`: the activity raised, the FAILED record was written and its
persistence patch awaited; next block sets the failure flag and
returns. -/
inductive TaskPC where
  | start
  | executing
  | recSuccess
  | recFailed
deriving DecidableEq

/-- One pending `execute_node(key)` coroutine. -/
structure WTask where
  key : Option String
  pc : TaskPC
deriving DecidableEq

/-- Scheduler state: the executed-node map, the workflow failure flag,
the pending tasks, the log of activity dispatches (arguments of
`workflow.execute_activity` for node operations, in order), and a crash
marker for an uncaught `KeyError` from `self.nodes[node_key]`. -/
structure WState where
  executed : ExecMap
  wfFailed : Bool
  tasks : List WTask
  dispatched : List String
  crashed : Bool
deriving DecidableEq

/-- One scheduling step: advance the pending task at index `i` by one
atomic block (the code between two suspension points).  An index with
no task, or a crashed state, leaves the state unchanged. -/
def stepF (nodes : List String) (edges : List Edge)
    (oracle : String → Except String String) (s : WState) (i : Nat) : WState :=
  if s.crashed then s
  else
    match s.tasks[i]? with
    | none => s
    | some t =>
      let rest := s.tasks.eraseIdx i
      match t.pc with
      | TaskPC.start =>
        if s.wfFailed then
          { s with executed := setKey s.executed t.key skipRec, tasks := rest }
        else
          match t.key with
          | none => { s with crashed := true, tasks := rest }
          | some key =>
            if key ∈ nodes then
              { s with tasks := rest ++ [⟨some key, TaskPC.executing⟩] }
            else { s with crashed := true, tasks := rest }
      | TaskPC.executing =>
        match t.key with
        | none => s
        | some key =>
          match oracle key with
          | Except.ok r =>
            { s with
              executed := setKey s.executed (some key) ⟨Status.SUCCESS, Output.result r⟩,
              dispatched := s.dispatched ++ [key],
              tasks := rest ++ [⟨some key, TaskPC.recSuccess⟩] }
          | Except.error m =>
            { s with
              executed := setKey s.executed (some key) ⟨Status.FAILED, Output.errorMsg m⟩,
              dispatched := s.dispatched ++ [key],
              tasks := rest ++ [⟨some key, TaskPC.recFailed⟩] }
      | TaskPC.recSuccess =>
        if s.wfFailed then { s with tasks := rest }
        else
          match t.key with
          | none => s
          | some key =>
            { s with
              tasks := rest ++
                (readyChildren nodes edges s.executed key).map
                  (fun c => ⟨c, TaskPC.start⟩) }
      | TaskPC.recFailed => { s with wfFailed := true, tasks := rest }

/-- Run the scheduler under an explicit interleaving schedule. -/
def runSched (nodes : List String) (edges : List Edge)
    (oracle : String → Except String String) (s : WState) (sched : List Nat) : WState :=
  sched.foldl (stepF nodes edges oracle) s

/-- The state right after `process_root_nodes` gathers `execute_node`
over the root keys: empty executed map, failure flag false, one pending
`start` task per root. -/
def initState (nodes : List String) (edges : List Edge) : WState :=
  ⟨[], false, (find_root_keys nodes edges).map (fun k => ⟨some k, TaskPC.start⟩), [], false⟩

/-- Scenario B of the spec: nodes a, b, c with edges a→b and a→c. -/
def nodesB : List String := ["a", "b", "c"]

/-- Scenario B edges. -/
def edgesB : List Edge := [⟨some "a", some "b"⟩, ⟨some "a", some "c"⟩]

/-- Scenario B oracle: node a's operation raises, the rest succeed. -/
def oracleB : String → Except String String :=
  fun k => if k = "a" then Except.error "boom" else Except.ok "done"

/-- Intermediate state of scenario B: a's task at its activity await. -/
def sB1 : WState := ⟨[], false, [⟨some "a", TaskPC.executing⟩], [], false⟩

/-- Intermediate state of scenario B after a's activity raised `msg`:
FAILED record written, failure flag not yet set. -/
def sB2 (msg : String) : WState :=
  ⟨[(some "a", ⟨Status.FAILED, Output.errorMsg msg⟩)], false,
   [⟨some "a", TaskPC.recFailed⟩], ["a"], false⟩

/-- Final state of scenario B: failure flag set, no pending tasks. -/
def sB3 (msg : String) : WState :=
  ⟨[(some "a", ⟨Status.FAILED, Output.errorMsg msg⟩)], true, [], ["a"], false⟩

/-- Diamond graph: a→c and b→c, two independent roots joining on c. -/
def diamondNodes : List String := ["a", "b", "c"]

/-- Diamond edges. -/
def diamondEdges : List Edge := [⟨some "a", some "c"⟩, ⟨some "b", some "c"⟩]

/-- All activities succeed. -/
def oracleOK : String → Except String String := fun _ => Except.ok "ok"

/-- Two roots x and y, with y→z; x's operation raises. -/
def siblingNodes : List String := ["x", "y", "z"]

/-- Sibling-failure edges. -/
def siblingEdges : List Edge := [⟨some "y", some "z"⟩]

/-- Oracle where only x raises. -/
def oracleXFails : String → Except String String :=
  fun k => if k = "x" then Except.error "boom" else Except.ok "ok"

/-- Graph with a malformed edge: nodes p, q; one edge with a missing
source endpoint pointing at q, plus the well-formed edge p→q. -/
def nullNodes : List String := ["p", "q"]

/-- Edge list containing the malformed edge `{from: None, to: q}`. -/
def nullEdges : List Edge := [⟨none, some "q"⟩, ⟨some "p", some "q"⟩]

/-- The same graph without the malformed edge. -/
def cleanEdges : List Edge := [⟨some "p", some "q"⟩]

/-- Scenario B run: a fails; this schedule drives the single root task
to completion. -/
def scenarioBRun : WState :=
  runSched nodesB edgesB oracleB (initState nodesB edgesB) [0, 0, 0]

/-- Diamond run under the interleaving where both parents record
success before either runs its child-processing block. -/
def diamondRun : WState :=
  runSched diamondNodes diamondEdges oracleOK (initState diamondNodes diamondEdges)
    [0, 0, 0, 0, 0, 0, 0, 0, 0, 0, 0, 0]

/-- Sibling run: x and y start, y succeeds, x fails and trips the flag
before y's child-processing block runs. -/
def siblingRun : WState :=
  runSched siblingNodes siblingEdges oracleXFails (initState siblingNodes siblingEdges)
    [0, 0, 1, 0, 1, 0]

/-- Run of the malformed-edge graph: p succeeds but q never becomes
ready. -/
def nullRun : WState :=
  runSched nullNodes nullEdges oracleOK (initState nullNodes nullEdges) [0, 0, 0]

/-- Run of the same graph without the malformed edge: q is dispatched
after p. -/
def cleanRun : WState :=
  runSched nullNodes cleanEdges oracleOK (initState nullNodes cleanEdges)
    [0, 0, 0, 0, 0, 0]

/-! ## Helper lemmas about the step machine -/

/-- A scheduling index with no pending task leaves the state unchanged. -/
theorem stepF_oob (nodes : List String) (edges : List Edge)
    (oracle : String → Except String String) (s : WState) (i : Nat)
    (h : s.tasks[i]? = none) : stepF nodes edges oracle s i = s := by
  simp [stepF, h]

/-- A task at `start` while the failure flag is set: record SKIPPED with
the fixed message and finish, touching nothing else. -/
theorem stepF_start_skip (nodes : List String) (edges : List Edge)
    (oracle : String → Except String String) (s : WState) (i : Nat) (k : Option String)
    (hc : s.crashed = false) (ht : s.tasks[i]? = some ⟨k, TaskPC.start⟩)
    (hf : s.wfFailed = true) :
    stepF nodes edges oracle s i =
      { s with executed := setKey s.executed k skipRec, tasks := s.tasks.eraseIdx i } := by
  simp [stepF, hc, ht, hf]

/-- A task at `start` with the failure flag unset and a key present in
the node map: advance to the activity await. -/
theorem stepF_start_run (nodes : List String) (edges : List Edge)
    (oracle : String → Except String String) (s : WState) (i : Nat) (k : String)
    (hc : s.crashed = false) (ht : s.tasks[i]? = some ⟨some k, TaskPC.start⟩)
    (hf : s.wfFailed = false) (hk : k ∈ nodes) :
    stepF nodes edges oracle s i =
      { s with tasks := s.tasks.eraseIdx i ++ [⟨some k, TaskPC.executing⟩] } := by
  simp [stepF, hc, ht, hf, hk]

/-- A task at its activity await whose operation succeeds: log the
dispatch, record SUCCESS, move to the child-processing block. -/
theorem stepF_exec_ok (nodes : List String) (edges : List Edge)
    (oracle : String → Except String String) (s : WState) (i : Nat) (k r : String)
    (hc : s.crashed = false) (ht : s.tasks[i]? = some ⟨some k, TaskPC.executing⟩)
    (ho : oracle k = Except.ok r) :
    stepF nodes edges oracle s i =
      { s with
        executed := setKey s.executed (some k) ⟨Status.SUCCESS, Output.result r⟩,
        dispatched := s.dispatched ++ [k],
        tasks := s.tasks.eraseIdx i ++ [⟨some k, TaskPC.recSuccess⟩] } := by
  simp [stepF, hc, ht, ho]

/-- A task at its activity await whose operation raises: log the
dispatch, record FAILED with the error payload, move to the
failure-handling block. -/
theorem stepF_exec_err (nodes : List String) (edges : List Edge)
    (oracle : String → Except String String) (s : WState) (i : Nat) (k m : String)
    (hc : s.crashed = false) (ht : s.tasks[i]? = some ⟨some k, TaskPC.executing⟩)
    (ho : oracle k = Except.error m) :
    stepF nodes edges oracle s i =
      { s with
        executed := setKey s.executed (some k) ⟨Status.FAILED, Output.errorMsg m⟩,
        dispatched := s.dispatched ++ [k],
        tasks := s.tasks.eraseIdx i ++ [⟨some k, TaskPC.recFailed⟩] } := by
  simp [stepF, hc, ht, ho]

/-- The child-processing block with the failure flag unset: spawn a
`start` task for exactly the ready children. -/
theorem stepF_recSuccess_go (nodes : List String) (edges : List Edge)
    (oracle : String → Except String String) (s : WState) (i : Nat) (k : String)
    (hc : s.crashed = false) (ht : s.tasks[i]? = some ⟨some k, TaskPC.recSuccess⟩)
    (hf : s.wfFailed = false) :
    stepF nodes edges oracle s i =
      { s with
        tasks := s.tasks.eraseIdx i ++
          (readyChildren nodes edges s.executed k).map (fun c => ⟨c, TaskPC.start⟩) } := by
  simp [stepF, hc, ht, hf]

/-- The child-processing block with the failure flag set: spawn
nothing. -/
theorem stepF_recSuccess_flag (nodes : List String) (edges : List Edge)
    (oracle : String → Except String String) (s : WState) (i : Nat) (k : Option String)
    (hc : s.crashed = false) (ht : s.tasks[i]? = some ⟨k, TaskPC.recSuccess⟩)
    (hf : s.wfFailed = true) :
    stepF nodes edges oracle s i = { s with tasks := s.tasks.eraseIdx i } := by
  simp [stepF, hc, ht, hf]

/-- The failure-handling block: set the workflow failure flag and
finish, spawning nothing. -/
theorem stepF_recFailed (nodes : List String) (edges : List Edge)
    (oracle : String → Except String String) (s : WState) (i : Nat) (k : Option String)
    (hc : s.crashed = false) (ht : s.tasks[i]? = some ⟨k, TaskPC.recFailed⟩) :
    stepF nodes edges oracle s i = { s with wfFailed := true, tasks := s.tasks.eraseIdx i } := by
  simp [stepF, hc, ht]

/-- Looking up the key just written. -/
theorem lookupKey_setKey (m : ExecMap) (k : Option String) (v : NodeRec) :
    lookupKey (setKey m k v) k = some v := by
  induction m with
  | nil => simp [setKey, lookupKey]
  | cons p rest ih =>
    by_cases h : p.1 = k
    · simp [setKey, lookupKey, h]
    · simp [setKey, lookupKey, h, ih]

/-- A crashed state never changes. -/
theorem stepF_crashed (nodes : List String) (edges : List Edge)
    (oracle : String → Except String String) (s : WState) (i : Nat)
    (h : s.crashed = true) : stepF nodes edges oracle s i = s := by
  simp [stepF, h]

/-- No step of the scheduler resets the workflow failure flag. -/
theorem stepF_wfFailed_mono (nodes : List String) (edges : List Edge)
    (oracle : String → Except String String) (s : WState) (i : Nat)
    (h : s.wfFailed = true) : (stepF nodes edges oracle s i).wfFailed = true := by
  cases hcr : s.crashed with
  | true => rw [stepF_crashed nodes edges oracle s i hcr]; exact h
  | false =>
    rcases htask : s.tasks[i]? with _ | ⟨k, pc⟩
    · rw [stepF_oob nodes edges oracle s i htask]; exact h
    · cases pc with
      | start => simp [stepF, hcr, htask, h]
      | executing =>
        rcases k with _ | key
        · simp [stepF, hcr, htask, h]
        · cases ho : oracle key <;> simp [stepF, hcr, htask, ho, h]
      | recSuccess => rcases k with _ | key <;> simp [stepF, hcr, htask, h]
      | recFailed => simp [stepF, hcr, htask]

/-- Once set, the failure flag survives any schedule. -/
theorem runSched_wfFailed_mono (nodes : List String) (edges : List Edge)
    (oracle : String → Except String String) (s : WState) (sched : List Nat)
    (h : s.wfFailed = true) : (runSched nodes edges oracle s sched).wfFailed = true := by
  induction sched generalizing s with
  | nil => exact h
  | cons i rest ih =>
    exact ih (stepF nodes edges oracle s i) (stepF_wfFailed_mono nodes edges oracle s i h)

/-! ## Claim theorems -/

/-- C5: the root keys computed at run start are exactly the node keys
that are never named as an edge target; a node appearing only as an edge
source is always a root; the empty graph has an empty root set. -/
theorem find_root_keys_spec :
    (∀ (nodes : List String) (edges : List Edge) (k : String),
      k ∈ find_root_keys nodes edges ↔ k ∈ nodes ∧ ∀ e ∈ edges, e.to_node ≠ some k)
    ∧ (∀ (nodes : List String) (edges : List Edge) (k : String),
      k ∈ nodes → (∀ e ∈ edges, e.to_node ≠ some k) → k ∈ find_root_keys nodes edges)
    ∧ (∀ edges : List Edge, find_root_keys [] edges = []) := by
  have h1 : ∀ (nodes : List String) (edges : List Edge) (k : String),
      k ∈ find_root_keys nodes edges ↔ k ∈ nodes ∧ ∀ e ∈ edges, e.to_node ≠ some k := by
    intro nodes edges k
    simp [find_root_keys, List.mem_filter, List.any_eq_true]
  refine ⟨h1, ?_, ?_⟩
  · intro nodes edges k hk hnt
    exact (h1 nodes edges k).mpr ⟨hk, hnt⟩
  · intro edges
    rfl

/-- C5 witness: on the scenario-B graph the only root is a, which is a
source of edges but never a target. -/
theorem find_root_keys_spec_witness :
    find_root_keys nodesB edgesB = ["a"]
    ∧ "a" ∈ find_root_keys nodesB edgesB
    ∧ ("b" ∈ find_root_keys nodesB edgesB ↔
        "b" ∈ nodesB ∧ ∀ e ∈ edgesB, e.to_node ≠ some "b") := by
  refine ⟨rfl, ?_, find_root_keys_spec.1 nodesB edgesB "b"⟩
  exact find_root_keys_spec.2.1 nodesB edgesB "a" (by decide) (by decide)

/-- C6: the final run status is FAILED if any tracked node is FAILED,
else PENDING if any tracked node is PENDING, else COMPLETED; a single
failure anywhere dominates, and an empty map yields COMPLETED. -/
theorem determine_final_status_spec :
    (∀ m : ExecMap, (∃ p ∈ m, p.2.status = Status.FAILED) →
      determine_final_status m = Status.FAILED)
    ∧ (∀ m : ExecMap, (∀ p ∈ m, p.2.status ≠ Status.FAILED) →
      (∃ p ∈ m, p.2.status = Status.PENDING) →
      determine_final_status m = Status.PENDING)
    ∧ (∀ m : ExecMap, (∀ p ∈ m, p.2.status ≠ Status.FAILED ∧ p.2.status ≠ Status.PENDING) →
      determine_final_status m = Status.COMPLETED)
    ∧ determine_final_status [] = Status.COMPLETED := by
  refine ⟨?_, ?_, ?_, rfl⟩
  · intro m h
    obtain ⟨p, hp, hst⟩ := h
    have : (m.map (fun p => p.2.status)).any (fun st => st == Status.FAILED) = true := by
      rw [List.any_eq_true]
      exact ⟨p.2.status, List.mem_map_of_mem _ hp, by simp [hst]⟩
    simp [determine_final_status, this]
  · intro m hnf h
    obtain ⟨p, hp, hst⟩ := h
    have hf : (m.map (fun p => p.2.status)).any (fun st => st == Status.FAILED) = false := by
      rw [List.any_eq_false]
      intro st hstm
      obtain ⟨q, hq, rfl⟩ := List.mem_map.mp hstm
      simpa using hnf q hq
    have hpend : (m.map (fun p => p.2.status)).any (fun st => st == Status.PENDING) = true := by
      rw [List.any_eq_true]
      exact ⟨p.2.status, List.mem_map_of_mem _ hp, by simp [hst]⟩
    simp [determine_final_status, hf, hpend]
  · intro m h
    have hf : (m.map (fun p => p.2.status)).any (fun st => st == Status.FAILED) = false := by
      rw [List.any_eq_false]
      intro st hstm
      obtain ⟨q, hq, rfl⟩ := List.mem_map.mp hstm
      simpa using (h q hq).1
    have hpend : (m.map (fun p => p.2.status)).any (fun st => st == Status.PENDING) = false := by
      rw [List.any_eq_false]
      intro st hstm
      obtain ⟨q, hq, rfl⟩ := List.mem_map.mp hstm
      simpa using (h q hq).2
    simp [determine_final_status, hf, hpend]

/-- C6 witness: a single failure among successes yields FAILED, a
pending entry among successes yields PENDING, successes alone yield
COMPLETED, and the empty map yields COMPLETED. -/
theorem determine_final_status_spec_witness :
    determine_final_status
      [(some "a", ⟨Status.FAILED, Output.errorMsg "e"⟩),
       (some "b", ⟨Status.SUCCESS, Output.result "r"⟩)] = Status.FAILED
    ∧ determine_final_status
      [(some "a", ⟨Status.PENDING, Output.result "r"⟩),
       (some "b", ⟨Status.SUCCESS, Output.result "r"⟩)] = Status.PENDING
    ∧ determine_final_status
      [(some "a", ⟨Status.SUCCESS, Output.result "r"⟩)] = Status.COMPLETED
    ∧ determine_final_status [] = Status.COMPLETED := by
  refine ⟨?_, ?_, ?_, determine_final_status_spec.2.2.2⟩
  · exact determine_final_status_spec.1 _ (by decide)
  · exact determine_final_status_spec.2.1 _ (by decide) (by decide)
  · exact determine_final_status_spec.2.2.1 _ (by decide)

/-- C10: with no execution record created (execution id unset), the
persistence helpers issue no patch call at all. -/
theorem no_patch_without_execution_id :
    (∀ (user_id : Option String) (status : Status),
      update_execution_status none user_id status = [])
    ∧ (∀ (user_id : Option String) (node_key : String) (result : Option Output)
        (status : Option Status),
      update_node_output none user_id node_key result status = []) :=
  ⟨fun _ _ => rfl, fun _ _ _ _ => rfl⟩

/-- C2: any task whose dispatch is attempted while the failure flag is
set is recorded SKIPPED with output `{error: "Skipped due to previous
node failure"}`, and `execute_node` returns without dispatching its
operation — for an arbitrary graph, so independently of any dependency
relationship to the node that failed. -/
theorem skip_on_failure_flag (nodes : List String) (edges : List Edge)
    (oracle : String → Except String String) (s : WState) (i : Nat) (k : Option String)
    (hc : s.crashed = false) (ht : s.tasks[i]? = some ⟨k, TaskPC.start⟩)
    (hf : s.wfFailed = true) :
    stepF nodes edges oracle s i =
      { s with executed := setKey s.executed k skipRec, tasks := s.tasks.eraseIdx i }
    ∧ lookupKey (stepF nodes edges oracle s i).executed k =
        some ⟨Status.SKIPPED, Output.errorMsg "Skipped due to previous node failure"⟩
    ∧ (stepF nodes edges oracle s i).dispatched = s.dispatched := by
  have h := stepF_start_skip nodes edges oracle s i k hc ht hf
  refine ⟨h, ?_, ?_⟩
  · rw [h]
    exact lookupKey_setKey s.executed k skipRec
  · rw [h]

/-- C2 witness: a node with no edges at all, dispatched with the flag
set, is recorded SKIPPED with the fixed message and nothing is
dispatched. -/
theorem skip_on_failure_flag_witness :
    stepF ["n"] [] oracleOK ⟨[], true, [⟨some "n", TaskPC.start⟩], [], false⟩ 0 =
      ⟨[(some "n", skipRec)], true, [], [], false⟩
    ∧ lookupKey (stepF ["n"] [] oracleOK
        ⟨[], true, [⟨some "n", TaskPC.start⟩], [], false⟩ 0).executed (some "n") =
      some ⟨Status.SKIPPED, Output.errorMsg "Skipped due to previous node failure"⟩ := by
  have h := skip_on_failure_flag ["n"] [] oracleOK
    ⟨[], true, [⟨some "n", TaskPC.start⟩], [], false⟩ 0 (some "n") rfl rfl rfl
  exact ⟨h.1, h.2.1⟩

/-- C3: when a dispatched operation raises, the scheduler records the
node FAILED with `{error: message}` and moves to the failure-handling
block, which sets the workflow failure flag and completes the task
without spawning any child task. -/
theorem failure_handling_step (nodes : List String) (edges : List Edge)
    (oracle : String → Except String String) :
    (∀ (s : WState) (i : Nat) (k m : String),
      s.crashed = false → s.tasks[i]? = some ⟨some k, TaskPC.executing⟩ →
      oracle k = Except.error m →
      stepF nodes edges oracle s i =
        { s with
          executed := setKey s.executed (some k) ⟨Status.FAILED, Output.errorMsg m⟩,
          dispatched := s.dispatched ++ [k],
          tasks := s.tasks.eraseIdx i ++ [⟨some k, TaskPC.recFailed⟩] })
    ∧ (∀ (s : WState) (i : Nat) (k : Option String),
      s.crashed = false → s.tasks[i]? = some ⟨k, TaskPC.recFailed⟩ →
      stepF nodes edges oracle s i =
        { s with wfFailed := true, tasks := s.tasks.eraseIdx i }) :=
  ⟨fun s i k m hc ht ho => stepF_exec_err nodes edges oracle s i k m hc ht ho,
   fun s i k hc ht => stepF_recFailed nodes edges oracle s i k hc ht⟩

/-- C3 witness: node a raises; the FAILED record with the error payload
is written, then the flag trips and the task finishes with no children
processed. -/
theorem failure_handling_step_witness :
    stepF ["a"] [] oracleB ⟨[], false, [⟨some "a", TaskPC.executing⟩], [], false⟩ 0 =
      ⟨[(some "a", ⟨Status.FAILED, Output.errorMsg "boom"⟩)], false,
       [⟨some "a", TaskPC.recFailed⟩], ["a"], false⟩
    ∧ stepF ["a"] [] oracleB
        ⟨[(some "a", ⟨Status.FAILED, Output.errorMsg "boom"⟩)], false,
         [⟨some "a", TaskPC.recFailed⟩], ["a"], false⟩ 0 =
      ⟨[(some "a", ⟨Status.FAILED, Output.errorMsg "boom"⟩)], true, [], ["a"], false⟩ := by
  have h := failure_handling_step ["a"] [] oracleB
  exact ⟨h.1 _ 0 "a" "boom" rfl rfl rfl, h.2 _ 0 (some "a") rfl rfl⟩

/-- C9: the workflow failure flag is false at run start, no scheduler
step ever resets it, and once true it stays true under every schedule. -/
theorem failure_flag_monotone :
    (∀ (nodes : List String) (edges : List Edge), (initState nodes edges).wfFailed = false)
    ∧ (∀ (nodes : List String) (edges : List Edge)
        (oracle : String → Except String String) (s : WState) (i : Nat),
      s.wfFailed = true → (stepF nodes edges oracle s i).wfFailed = true)
    ∧ (∀ (nodes : List String) (edges : List Edge)
        (oracle : String → Except String String) (s : WState) (sched : List Nat),
      s.wfFailed = true → (runSched nodes edges oracle s sched).wfFailed = true) :=
  ⟨fun _ _ => rfl,
   fun nodes edges oracle s i h => stepF_wfFailed_mono nodes edges oracle s i h,
   fun nodes edges oracle s sched h => runSched_wfFailed_mono nodes edges oracle s sched h⟩

/-- C9 witness: the flag starts false on the scenario-B graph and,
once true, survives an arbitrary concrete schedule. -/
theorem failure_flag_monotone_witness :
    (initState nodesB edgesB).wfFailed = false
    ∧ (stepF nodesB edgesB oracleB ⟨[], true, [⟨some "b", TaskPC.start⟩], [], false⟩ 0).wfFailed = true
    ∧ (runSched nodesB edgesB oracleB
        ⟨[], true, [⟨some "b", TaskPC.start⟩], [], false⟩ [0, 1, 0]).wfFailed = true :=
  ⟨failure_flag_monotone.1 nodesB edgesB,
   failure_flag_monotone.2.1 nodesB edgesB oracleB _ 0 rfl,
   failure_flag_monotone.2.2 nodesB edgesB oracleB _ [0, 1, 0] rfl⟩

/-- C4 counterexample: a completed run of the sibling graph in which y
completed successfully, its direct child z had every precomputed
dependency present in the executed map, and yet z was never launched —
a sibling failure set the flag between y's success record and y's
child-processing block.  This refutes the claim that after every
successful completion exactly the ready children are launched. -/
theorem success_children_not_launched_cex :
    siblingRun.tasks = []
    ∧ siblingRun.crashed = false
    ∧ lookupKey siblingRun.executed (some "y") =
        some ⟨Status.SUCCESS, Output.result "ok"⟩
    ∧ some "z" ∈ childNodes siblingEdges "y"
    ∧ (depLookup siblingNodes siblingEdges (some "z")).all
        (fun dep => (lookupKey siblingRun.executed dep).isSome) = true
    ∧ lookupKey siblingRun.executed (some "z") = none
    ∧ siblingRun.dispatched = ["y", "x"] := by
  decide

/-- C4 amended: when the child-processing block of a successfully
completed node runs with the failure flag unset, it launches exactly
the ready children; a child is ready iff it is a direct child and every
precomputed dependency is present as a key of the executed map; and
readiness depends only on key presence, never on the recorded status. -/
theorem child_dispatch_amended (nodes : List String) (edges : List Edge)
    (oracle : String → Except String String) :
    (∀ (s : WState) (i : Nat) (k : String),
      s.crashed = false → s.wfFailed = false →
      s.tasks[i]? = some ⟨some k, TaskPC.recSuccess⟩ →
      stepF nodes edges oracle s i =
        { s with tasks := s.tasks.eraseIdx i ++
            (readyChildren nodes edges s.executed k).map (fun c => ⟨c, TaskPC.start⟩) })
    ∧ (∀ (executed : ExecMap) (k : String) (c : Option String),
      c ∈ readyChildren nodes edges executed k ↔
        c ∈ childNodes edges k ∧
        ∀ dep ∈ depLookup nodes edges c, (lookupKey executed dep).isSome = true)
    ∧ (∀ (ex1 ex2 : ExecMap) (k : String),
      (∀ d : Option String, (lookupKey ex1 d).isSome = (lookupKey ex2 d).isSome) →
      readyChildren nodes edges ex1 k = readyChildren nodes edges ex2 k) := by
  refine ⟨?_, ?_, ?_⟩
  · intro s i k hc hf ht
    exact stepF_recSuccess_go nodes edges oracle s i k hc ht hf
  · intro executed k c
    simp [readyChildren, List.mem_filter, List.all_eq_true]
  · intro ex1 ex2 k hkeys
    unfold readyChildren
    apply List.filter_congr
    intro c _
    congr 1
    funext dep
    exact hkeys dep

/-- C4 amended witness: with the flag unset, y's child-processing block
launches exactly z; z's readiness is characterized by dependency-key
presence; and replacing y's SUCCESS record by a SKIPPED record leaves
readiness unchanged, showing dispatch is not gated on success. -/
theorem child_dispatch_amended_witness :
    stepF siblingNodes siblingEdges oracleOK
      ⟨[(some "y", ⟨Status.SUCCESS, Output.result "ok"⟩)], false,
       [⟨some "y", TaskPC.recSuccess⟩], ["y"], false⟩ 0 =
      ⟨[(some "y", ⟨Status.SUCCESS, Output.result "ok"⟩)], false,
       [⟨some "z", TaskPC.start⟩], ["y"], false⟩
    ∧ (some "z" ∈ readyChildren siblingNodes siblingEdges
        [(some "y", ⟨Status.SUCCESS, Output.result "ok"⟩)] "y" ↔
      some "z" ∈ childNodes siblingEdges "y" ∧
        ∀ dep ∈ depLookup siblingNodes siblingEdges (some "z"),
          (lookupKey [(some "y", ⟨Status.SUCCESS, Output.result "ok"⟩)] dep).isSome = true)
    ∧ readyChildren siblingNodes siblingEdges
        [(some "y", ⟨Status.SUCCESS, Output.result "ok"⟩)] "y" =
      readyChildren siblingNodes siblingEdges [(some "y", skipRec)] "y" := by
  have h := child_dispatch_amended siblingNodes siblingEdges oracleOK
  refine ⟨?_, h.2.1 _ "y" (some "z"), ?_⟩
  · exact h.1 _ 0 "y" rfl rfl rfl
  · exact h.2.2 _ _ "y" (by
      intro d
      by_cases hd : (some "y" : Option String) = d <;> simp [lookupKey, hd])

/-- Membership is invariant under set-style deduplication. -/
theorem mem_dedupO (x : Option String) (l : List (Option String)) :
    x ∈ dedupO l ↔ x ∈ l := by
  induction l with
  | nil => simp [dedupO]
  | cons a t ih =>
    by_cases h : a ∈ t
    · simp only [dedupO, if_pos h, ih, List.mem_cons]
      constructor
      · exact fun hx => Or.inr hx
      · rintro (rfl | hx)
        · exact h
        · exact hx
    · simp only [dedupO, if_neg h, List.mem_cons, ih]

/-- Filtering away edges with a missing target endpoint changes no
dependency-set element list. -/
theorem filter_some_target (edges : List Edge) (n : String) :
    (edges.filter (fun e => e.to_node.isSome)).filter (fun e => e.to_node == some n) =
      edges.filter (fun e => e.to_node == some n) := by
  induction edges with
  | nil => rfl
  | cons e rest ih =>
    by_cases hn : e.to_node = some n
    · have hs : e.to_node.isSome = true := by rw [hn]; rfl
      simp [List.filter_cons, hn, hs, ih]
    · rcases hto : e.to_node with _ | t
      · simp [List.filter_cons, hto, ih]
      · rw [hto] at hn
        simp [List.filter_cons, hto, hn, ih]

/-- C7 counterexample: on the graph with nodes p, q and edges
`{from: None, to: q}` and `{from: p, to: q}`, the malformed edge puts
the missing marker into q's dependency set, and a completed run
dispatches p but never q; deleting the malformed edge lets the same
schedule extended by q's steps dispatch q.  The malformed edge is
therefore not ignored by readiness computation: it blocks q forever. -/
theorem missing_endpoint_edge_cex :
    none ∈ nodeDeps nullEdges "q"
    ∧ nodeDeps cleanEdges "q" = [some "p"]
    ∧ nullRun.tasks = []
    ∧ nullRun.crashed = false
    ∧ lookupKey nullRun.executed (some "p") = some ⟨Status.SUCCESS, Output.result "ok"⟩
    ∧ lookupKey nullRun.executed (some "q") = none
    ∧ nullRun.dispatched = ["p"]
    ∧ cleanRun.tasks = []
    ∧ cleanRun.dispatched = ["p", "q"] := by
  decide

/-- C7 amended: an edge with a missing target endpoint contributes
nothing to any dependency set; but an edge with a missing source
endpoint and a present target contributes the missing marker to the
target's dependency set, and as long as no record exists under the
missing key, that target is never a ready child of any node. -/
theorem missing_endpoint_edge_amended :
    (∀ (edges : List Edge) (n : String),
      nodeDeps (edges.filter (fun e => e.to_node.isSome)) n = nodeDeps edges n)
    ∧ (∀ (nodes : List String) (edges : List Edge) (executed : ExecMap) (k n : String),
      Edge.mk none (some n) ∈ edges → n ∈ nodes →
      lookupKey executed none = none →
      some n ∉ readyChildren nodes edges executed k) := by
  constructor
  · intro edges n
    unfold nodeDeps
    rw [filter_some_target]
  · intro nodes edges executed k n hmem hn hnone hready
    rw [readyChildren, List.mem_filter] at hready
    have hall := hready.2
    rw [List.all_eq_true] at hall
    have hdep : none ∈ depLookup nodes edges (some n) := by
      simp only [depLookup, if_pos hn]
      rw [nodeDeps, mem_dedupO, List.mem_map]
      exact ⟨Edge.mk none (some n), by simpa using hmem, rfl⟩
    have := hall none hdep
    rw [hnone] at this
    simp at this

/-- C7 amended witness: dropping missing-target edges preserves q's
dependency list on the malformed graph, and with p recorded but no
record under the missing key, q is not a ready child of p. -/
theorem missing_endpoint_edge_amended_witness :
    nodeDeps (nullEdges.filter (fun e => e.to_node.isSome)) "q" = nodeDeps nullEdges "q"
    ∧ some "q" ∉ readyChildren nullNodes nullEdges
        [(some "p", ⟨Status.SUCCESS, Output.result "ok"⟩)] "p" :=
  ⟨missing_endpoint_edge_amended.1 nullEdges "q",
   missing_endpoint_edge_amended.2 nullNodes nullEdges
     [(some "p", ⟨Status.SUCCESS, Output.result "ok"⟩)] "p" "q"
     (by decide) (by decide) rfl⟩

/-- C8: a completed run of the diamond graph a→c, b→c in which the
activity of c is dispatched twice — both parents record success before
either runs its child-processing block, so both observe c's dependency
set fully present and both launch `execute_node("c")`.  No guard in the
code prevents the second dispatch. -/
theorem double_dispatch_run :
    diamondRun.tasks = []
    ∧ diamondRun.crashed = false
    ∧ diamondRun.dispatched = ["a", "b", "c", "c"]
    ∧ diamondRun.dispatched.count "c" = 2
    ∧ (∀ k ∈ diamondNodes, k ∈ diamondRun.dispatched) := by
  decide

/-- Scenario B: the only root task either idles (bad index) or moves to
the activity await. -/
theorem scenB_s0_step (oracle : String → Except String String) (i : Nat) :
    stepF nodesB edgesB oracle (initState nodesB edgesB) i = initState nodesB edgesB
    ∨ stepF nodesB edgesB oracle (initState nodesB edgesB) i = sB1 := by
  match i with
  | 0 => exact Or.inr rfl
  | i + 1 =>
    refine Or.inl (stepF_oob _ _ _ _ _ ?_)
    apply List.getElem?_eq_none
    have h1 : (initState nodesB edgesB).tasks.length = 1 := rfl
    rw [h1]
    omega

/-- Scenario B: a's activity await either idles or raises `msg`. -/
theorem scenB_s1_step (oracle : String → Except String String) (msg : String)
    (hora : oracle "a" = Except.error msg) (i : Nat) :
    stepF nodesB edgesB oracle sB1 i = sB1
    ∨ stepF nodesB edgesB oracle sB1 i = sB2 msg := by
  match i with
  | 0 =>
    right
    have h := stepF_exec_err nodesB edgesB oracle sB1 0 "a" msg rfl rfl hora
    rw [h]
    rfl
  | i + 1 =>
    refine Or.inl (stepF_oob _ _ _ _ _ ?_)
    apply List.getElem?_eq_none
    have h1 : sB1.tasks.length = 1 := rfl
    rw [h1]
    omega

/-- Scenario B: the failure-handling block either idles or trips the
flag and finishes the run. -/
theorem scenB_s2_step (oracle : String → Except String String) (msg : String) (i : Nat) :
    stepF nodesB edgesB oracle (sB2 msg) i = sB2 msg
    ∨ stepF nodesB edgesB oracle (sB2 msg) i = sB3 msg := by
  match i with
  | 0 =>
    right
    have h := stepF_recFailed nodesB edgesB oracle (sB2 msg) 0 (some "a") rfl rfl
    rw [h]
    rfl
  | i + 1 =>
    refine Or.inl (stepF_oob _ _ _ _ _ ?_)
    apply List.getElem?_eq_none
    have h1 : (sB2 msg).tasks.length = 1 := rfl
    rw [h1]
    omega

/-- Scenario B: the terminal state is a fixed point of every step. -/
theorem scenB_s3_step (oracle : String → Except String String) (msg : String) (i : Nat) :
    stepF nodesB edgesB oracle (sB3 msg) i = sB3 msg := by
  refine stepF_oob _ _ _ _ _ ?_
  apply List.getElem?_eq_none
  exact Nat.zero_le i

/-- Scenario B: under any schedule the run stays within four states. -/
theorem scenB_reach (oracle : String → Except String String) (msg : String)
    (hora : oracle "a" = Except.error msg) :
    ∀ (sched : List Nat) (s : WState),
      (s = initState nodesB edgesB ∨ s = sB1 ∨ s = sB2 msg ∨ s = sB3 msg) →
      (runSched nodesB edgesB oracle s sched = initState nodesB edgesB
       ∨ runSched nodesB edgesB oracle s sched = sB1
       ∨ runSched nodesB edgesB oracle s sched = sB2 msg
       ∨ runSched nodesB edgesB oracle s sched = sB3 msg) := by
  intro sched
  induction sched with
  | nil => intro s hs; simpa [runSched] using hs
  | cons i rest ih =>
    intro s hs
    have hstep : (stepF nodesB edgesB oracle s i = initState nodesB edgesB
        ∨ stepF nodesB edgesB oracle s i = sB1
        ∨ stepF nodesB edgesB oracle s i = sB2 msg
        ∨ stepF nodesB edgesB oracle s i = sB3 msg) := by
      rcases hs with rfl | rfl | rfl | rfl
      · rcases scenB_s0_step oracle i with h | h
        · exact Or.inl h
        · exact Or.inr (Or.inl h)
      · rcases scenB_s1_step oracle msg hora i with h | h
        · exact Or.inr (Or.inl h)
        · exact Or.inr (Or.inr (Or.inl h))
      · rcases scenB_s2_step oracle msg i with h | h
        · exact Or.inr (Or.inr (Or.inl h))
        · exact Or.inr (Or.inr (Or.inr h))
      · exact Or.inr (Or.inr (Or.inr (scenB_s3_step oracle msg i)))
    exact ih (stepF nodesB edgesB oracle s i) hstep

/-- C1 counterexample: scenario B run to completion with a failing —
the result records a as FAILED and the run status is FAILED, but b and
c have no entry at all: in particular neither is recorded SKIPPED with
the fixed skip message, contrary to the claim. -/
theorem scenarioB_children_not_skipped :
    scenarioBRun.tasks = []
    ∧ scenarioBRun.crashed = false
    ∧ lookupKey scenarioBRun.executed (some "a") =
        some ⟨Status.FAILED, Output.errorMsg "boom"⟩
    ∧ determine_final_status scenarioBRun.executed = Status.FAILED
    ∧ lookupKey scenarioBRun.executed (some "b") = none
    ∧ lookupKey scenarioBRun.executed (some "c") = none
    ∧ ¬ lookupKey scenarioBRun.executed (some "b") =
        some ⟨Status.SKIPPED, Output.errorMsg skipMsg⟩
    ∧ ¬ lookupKey scenarioBRun.executed (some "c") =
        some ⟨Status.SKIPPED, Output.errorMsg skipMsg⟩ := by
  decide

/-- C1 amended: on the graph nodes a, b, c with edges a→b, a→c, when
a's operation fails, every completed run records exactly a as FAILED
with the error payload, never dispatches b or c, leaves b and c without
any entry in the result map, and yields final run status FAILED. -/
theorem scenarioB_run_result (oracle : String → Except String String) (msg : String)
    (hora : oracle "a" = Except.error msg) (sched : List Nat)
    (hterm : (runSched nodesB edgesB oracle (initState nodesB edgesB) sched).tasks = []) :
    runSched nodesB edgesB oracle (initState nodesB edgesB) sched = sB3 msg
    ∧ (runSched nodesB edgesB oracle (initState nodesB edgesB) sched).executed =
        [(some "a", ⟨Status.FAILED, Output.errorMsg msg⟩)]
    ∧ determine_final_status
        (runSched nodesB edgesB oracle (initState nodesB edgesB) sched).executed =
        Status.FAILED
    ∧ lookupKey (runSched nodesB edgesB oracle (initState nodesB edgesB) sched).executed
        (some "b") = none
    ∧ lookupKey (runSched nodesB edgesB oracle (initState nodesB edgesB) sched).executed
        (some "c") = none
    ∧ (runSched nodesB edgesB oracle (initState nodesB edgesB) sched).dispatched = ["a"] := by
  have h := scenB_reach oracle msg hora sched (initState nodesB edgesB) (Or.inl rfl)
  rcases h with h | h | h | h
  · rw [h] at hterm
    exact absurd hterm (by decide)
  · rw [h] at hterm
    exact absurd hterm (by decide)
  · rw [h] at hterm
    simp [sB2] at hterm
  · rw [h]
    exact ⟨rfl, rfl, rfl, rfl, rfl, rfl⟩

/-- C1 amended witness: the concrete scenario-B run terminates in the
predicted state with final status FAILED. -/
theorem scenarioB_run_result_witness :
    runSched nodesB edgesB oracleB (initState nodesB edgesB) [0, 0, 0] = sB3 "boom"
    ∧ determine_final_status
        (runSched nodesB edgesB oracleB (initState nodesB edgesB) [0, 0, 0]).executed =
      Status.FAILED := by
  have h := scenarioB_run_result oracleB "boom" rfl [0, 0, 0] (by decide)
  exact ⟨h.1, h.2.2.1⟩
